import Mathlib

/-
  Verification of the signaling relay and peer-negotiation orchestrator of the
  vibe remote-desktop repository.

  The registry model below is a shallow embedding of the WebSocket signaling
  server (the second document of src/main/main.js): sessions are stored in a
  JS Map keyed by session code, each session holding the host transport and
  two JS Maps of pending and approved clients.  JS Maps are modelled as
  association lists with unique keys; transports are identified by natural
  numbers; the clientId property stored on a transport object is modelled as
  a map from transport id to client id.  Randomness (Math.random) is passed
  in as the string that toString(36) would have produced.
-/

namespace Vibe

/-- JS Map set: replace the entry with the given key, or append a new entry. -/
def mset {κ α : Type} [DecidableEq κ] (k : κ) (v : α) : List (κ × α) → List (κ × α)
  | [] => [(k, v)]
  | e :: rest => if e.1 = k then (k, v) :: rest else e :: mset k v rest

/-- JS Map get: first value stored under the key, if any. -/
def mget {κ α : Type} [DecidableEq κ] (k : κ) : List (κ × α) → Option α
  | [] => none
  | e :: rest => if e.1 = k then some e.2 else mget k rest

/-- JS Map has. -/
def mhas {κ α : Type} [DecidableEq κ] (k : κ) (m : List (κ × α)) : Bool :=
  (mget k m).isSome

/-- JS Map delete: removes the entry with the given key (keys are unique in a Map). -/
def mdel {κ α : Type} [DecidableEq κ] (k : κ) : List (κ × α) → List (κ × α)
  | [] => []
  | e :: rest => if e.1 = k then mdel k rest else e :: mdel k rest

/-- A session record of the registry: the host transport plus the pending and
approved client maps, as created by the create-session handler. -/
structure Session where
  hostWs : Nat
  pendingClients : List (String × Nat)
  approvedClients : List (String × Nat)
deriving DecidableEq

/-- The whole registry state: the sessions map, plus the clientId property the
join-session handler stores on each client transport object. -/
structure Registry where
  sessions : List (String × Session)
  wsClientId : List (Nat × String)
deriving DecidableEq

/-- A parsed inbound signaling message; absent JSON fields are the empty string. -/
structure SigData where
  type : String := ""
  sessionId : String := ""
  targetId : String := ""
  clientId : String := ""
  senderId : String := ""
  signal : String := ""
  status : String := ""
deriving DecidableEq

/-- An outbound signaling message emitted by the registry; absent fields are empty. -/
structure OutMsg where
  type : String := ""
  sessionId : String := ""
  clientId : String := ""
  senderId : String := ""
  signal : String := ""
  status : String := ""
deriving DecidableEq

/-- ASCII uppercase of one character, as toUpperCase acts on the code points
the session code generator can produce. -/
def upChar (c : Char) : Char :=
  if 97 ≤ c.toNat ∧ c.toNat ≤ 122 then Char.ofNat (c.toNat - 32) else c

/-- Character-wise drop, modelling String.prototype.substring from an index. -/
def strDrop (s : String) (n : Nat) : String := ⟨s.data.drop n⟩

/-- Character-wise take, modelling String.prototype.substring up to an index. -/
def strTake (s : String) (n : Nat) : String := ⟨s.data.take n⟩

/-- Character-wise uppercase. -/
def strUpper (s : String) : String := ⟨s.data.map upChar⟩

/-- Session code generation: Math.random().toString(36).substring(2, 6).toUpperCase(),
with the random draw passed in as the toString(36) output. -/
def codeOf (rnd : String) : String := strUpper (strTake (strDrop rnd 2) 4)

/-- Client id generation: Math.random().toString(36).substring(2, 9). -/
def clientIdOf (rnd : String) : String := strTake (strDrop rnd 2) 7

/-- The create-session case: store a fresh session record under the generated
code (overwriting any session already stored under that code) and reply
session-created to the caller.  There is no uniqueness check and no retry. -/
def createSessionStep (rnd : String) (st : Registry) (ws : Nat) :
    Registry × List (Nat × OutMsg) :=
  let sid := codeOf rnd
  ({ st with sessions := mset sid ⟨ws, [], []⟩ st.sessions },
   [(ws, { type := "session-created", sessionId := sid })])

/-- The join-session case: if the session exists, generate a client id, record
the caller as pending, remember the id on the transport, and notify the host;
otherwise reply session-not-found to the caller. -/
def joinSessionStep (rnd : String) (st : Registry) (ws : Nat) (d : SigData) :
    Registry × List (Nat × OutMsg) :=
  match mget d.sessionId st.sessions with
  | some s =>
    let cid := clientIdOf rnd
    let s2 : Session := { s with pendingClients := mset cid ws s.pendingClients }
    ({ st with
        sessions := mset d.sessionId s2 st.sessions,
        wsClientId := mset ws cid st.wsClientId },
     [(s.hostWs, { type := "client-request-join", clientId := cid, sessionId := d.sessionId })])
  | none => (st, [(ws, { type := "session-not-found" })])

/-- The approve-client case: only when the caller is the session host and the
id is pending, move the id from pending to approved and notify the client then
the host; otherwise do nothing and send nothing. -/
def approveClientStep (st : Registry) (ws : Nat) (d : SigData) :
    Registry × List (Nat × OutMsg) :=
  match mget d.sessionId st.sessions with
  | some s =>
    if s.hostWs = ws then
      match mget d.clientId s.pendingClients with
      | some cws =>
        let s2 : Session :=
          { s with pendingClients := mdel d.clientId s.pendingClients,
                   approvedClients := mset d.clientId cws s.approvedClients }
        ({ st with sessions := mset d.sessionId s2 st.sessions },
         [(cws, { type := "session-joined", sessionId := d.sessionId, clientId := d.clientId }),
          (s.hostWs, { type := "peer-approved", clientId := d.clientId })])
      | none => (st, [])
    else (st, [])
  | none => (st, [])

/-- The reject-client case: only when the caller is the session host and the id
is pending, remove the id from pending and notify the client. -/
def rejectClientStep (st : Registry) (ws : Nat) (d : SigData) :
    Registry × List (Nat × OutMsg) :=
  match mget d.sessionId st.sessions with
  | some s =>
    if s.hostWs = ws then
      match mget d.clientId s.pendingClients with
      | some cws =>
        let s2 : Session := { s with pendingClients := mdel d.clientId s.pendingClients }
        ({ st with sessions := mset d.sessionId s2 st.sessions },
         [(cws, { type := "session-rejected", sessionId := d.sessionId })])
      | none => (st, [])
    else (st, [])
  | none => (st, [])

/-- The client-connected case: forwarded to the host only when the sender is an
approved client of the session, tagged with the clientId stored on the sender
transport; no registry state is changed. -/
def clientConnectedStep (st : Registry) (ws : Nat) (d : SigData) :
    Registry × List (Nat × OutMsg) :=
  match mget d.sessionId st.sessions with
  | some s =>
    match mget ws st.wsClientId with
    | some cid =>
      if mhas cid s.approvedClients then
        (st, [(s.hostWs, { type := "client-connected", senderId := cid, status := d.status })])
      else (st, [])
    | none => (st, [])
  | none => (st, [])

/-- The client-to-host arm of the relay: forwarded to the host, tagged with the
clientId stored on the sender transport, only when that id is approved. -/
def relayClientBranch (st : Registry) (ws : Nat) (s : Session) (d : SigData) :
    Registry × List (Nat × OutMsg) :=
  match mget ws st.wsClientId with
  | some cid =>
    if mhas cid s.approvedClients then
      (st, [(s.hostWs, { type := d.type, senderId := cid, signal := d.signal })])
    else (st, [])
  | none => (st, [])

/-- The offer, answer and candidate cases: host to approved target, tagged with
the literal host id, or approved client to host, tagged with the clientId stored
on the sender transport; otherwise dropped with only a log.  The senderId field
of the inbound message is never read. -/
def relayStep (st : Registry) (ws : Nat) (d : SigData) :
    Registry × List (Nat × OutMsg) :=
  match mget d.sessionId st.sessions with
  | some s =>
    if s.hostWs = ws then
      match mget d.targetId s.approvedClients with
      | some tws => (st, [(tws, { type := d.type, senderId := "host", signal := d.signal })])
      | none => relayClientBranch st ws s d
    else relayClientBranch st ws s d
  | none => (st, [])

/-- The message dispatch of the registry: the switch over data.type.  A type
with no case, such as peer-disconnected, changes nothing and emits nothing. -/
def handleMessage (rnd : String) (st : Registry) (ws : Nat) (d : SigData) :
    Registry × List (Nat × OutMsg) :=
  if d.type = "create-session" then createSessionStep rnd st ws
  else if d.type = "join-session" then joinSessionStep rnd st ws d
  else if d.type = "approve-client" then approveClientStep st ws d
  else if d.type = "reject-client" then rejectClientStep st ws d
  else if d.type = "client-connected" then clientConnectedStep st ws d
  else if d.type = "offer" ∨ d.type = "answer" ∨ d.type = "candidate" then relayStep st ws d
  else (st, [])

/-- Close handling for one session entry: a host close drops the session and
notifies every pending and approved client; a client close removes its entries
from pending and approved and notifies the host when its transport is open. -/
def closeOne (op : Nat → Bool) (ws : Nat) (e : String × Session) :
    Option (String × Session) × List (Nat × OutMsg) :=
  let s := e.2
  if s.hostWs = ws then
    (none,
     s.pendingClients.map (fun p => (p.2, { type := "host-disconnected" })) ++
     s.approvedClients.map (fun p => (p.2, { type := "host-disconnected" })))
  else
    let pendGone := s.pendingClients.filter (fun p => decide (p.2 = ws))
    let apprGone := s.approvedClients.filter (fun p => decide (p.2 = ws))
    (some (e.1,
      { s with pendingClients := s.pendingClients.filter (fun p => decide (p.2 ≠ ws)),
               approvedClients := s.approvedClients.filter (fun p => decide (p.2 ≠ ws)) }),
     (if op s.hostWs then
        pendGone.map (fun p => (s.hostWs, { type := "client-disconnected", clientId := p.1 }))
      else []) ++
     (if op s.hostWs then
        apprGone.map (fun p => (s.hostWs, { type := "peer-disconnected", clientId := p.1 }))
      else []))

/-- The close handler of the registry: classify the closed transport against
every session.  The op predicate tells which transports are still open. -/
def handleClose (op : Nat → Bool) (st : Registry) (ws : Nat) :
    Registry × List (Nat × OutMsg) :=
  ({ st with sessions := st.sessions.filterMap (fun e => (closeOne op ws e).1) },
   (st.sessions.map (fun e => (closeOne op ws e).2)).flatten)

/-- Reachable registry states: the empty registry, closed under the message
handler (for an arbitrary random draw) and the close handler. -/
inductive Reach : Registry → Prop
  | init : Reach ⟨[], []⟩
  | msg (rnd : String) (ws : Nat) (d : SigData) {st : Registry} :
      Reach st → Reach (handleMessage rnd st ws d).1
  | close (op : Nat → Bool) (ws : Nat) {st : Registry} :
      Reach st → Reach (handleClose op st ws).1

/-- The disjointness invariant for one session: no client id is in the pending
map and the approved map at the same time. -/
def SessionDisjoint (s : Session) : Prop :=
  ∀ cid, ¬(mhas cid s.pendingClients = true ∧ mhas cid s.approvedClients = true)

/-- The disjointness invariant over every session entry of the registry. -/
def RegistryDisjoint (st : Registry) : Prop :=
  ∀ e ∈ st.sessions, SessionDisjoint e.2

/-- The session map holds each session code at most once. -/
def KeysNodup (st : Registry) : Prop :=
  (st.sessions.map Prod.fst).Nodup

/-- A random draw is fresh for a state and message when the session code it
would generate is not an active session code, and the client id it would
generate is not already pending or approved in the joined session. -/
def freshDraw (rnd : String) (st : Registry) (d : SigData) : Bool :=
  (if d.type = "create-session" then !(mhas (codeOf rnd) st.sessions) else true) &&
  (if d.type = "join-session" then
    match mget d.sessionId st.sessions with
    | some s =>
      !(mhas (clientIdOf rnd) s.pendingClients) && !(mhas (clientIdOf rnd) s.approvedClients)
    | none => true
  else true)

/-- Reachable registry states when every random draw is fresh. -/
inductive FReach : Registry → Prop
  | init : FReach ⟨[], []⟩
  | msg (rnd : String) (ws : Nat) (d : SigData) {st : Registry} :
      FReach st → freshDraw rnd st d = true → FReach (handleMessage rnd st ws d).1
  | close (op : Nat → Bool) (ws : Nat) {st : Registry} :
      FReach st → FReach (handleClose op st ws).1

/-
  Orchestrator model: a shallow embedding of the useWebRTC hook of the peer
  negotiation orchestrator (offer, answer and ICE candidate handlers, the
  signaling queue, peer removal and connection reset), of the useRemoteControl
  hook (data channel authorization gate and control toggling), and of the
  client-side connection timeout effect.
-/

/-- The observable negotiation state of one RTCPeerConnection: the applied
descriptions and the ICE candidates added so far, in order. -/
structure RTCPeer where
  remoteDescription : Option String := none
  localDescription : Option String := none
  applied : List String := []
deriving DecidableEq

/-- One entry of the peers list kept by the host. -/
structure Peer where
  id : String
  name : String
  status : String
deriving DecidableEq

/-- A parsed signaling message as seen by the orchestrator. -/
structure ClientSig where
  type : String := ""
  sessionId : String := ""
  senderId : String := ""
  clientId : String := ""
  signal : String := ""
  status : String := ""
deriving DecidableEq

/-- A signaling message the orchestrator emits through sendMessage. -/
structure WireOut where
  type : String := ""
  sessionId : String := ""
  targetId : String := ""
  signal : String := ""
  status : String := ""
deriving DecidableEq

/-- The orchestrator state of the useWebRTC hook: the React state variables
plus the peer connection and data channel refs. -/
structure Orch where
  peers : List Peer := []
  pendingClients : List (String × String) := []
  remoteStream : Option String := none
  isSessionReady : Bool := false
  currentSessionCode : String := ""
  signalingQueue : List ClientSig := []
  pendingIceCandidates : List (String × List String) := []
  connectingPeers : List String := []
  isConnecting : Bool := false
  pcs : List (String × RTCPeer) := []
  channels : List (String × String) := []
deriving DecidableEq

/-- addIceCandidate on a connection records the candidate, in arrival order. -/
def addIceCandidate (pc : RTCPeer) (c : String) : RTCPeer :=
  { pc with applied := pc.applied ++ [c] }

/-- setRemoteDescription on a connection. -/
def setRemote (pc : RTCPeer) (desc : String) : RTCPeer :=
  { pc with remoteDescription := some desc }

/-- The key under which signaling handlers look up the peer connection: the
sender id on the host side, the literal host key on the client side. -/
def iceKey (isHost : Bool) (d : ClientSig) : String :=
  if isHost then d.senderId else "host"

/-- Appending one candidate to the buffer entry of a target, creating the
entry when absent: the spread of the previous list plus the new candidate. -/
def bufPush (buf : List (String × List String)) (k c : String) : List (String × List String) :=
  mset k (((mget k buf).getD []) ++ [c]) buf

/-- The candidate handler: apply immediately when the connection exists and
has a remote description; otherwise append to the pending buffer keyed by the
target. -/
def handleIceCandidate (isHost : Bool) (st : Orch) (d : ClientSig) : Orch :=
  let targetId := iceKey isHost d
  match mget targetId st.pcs with
  | some pc =>
    if pc.remoteDescription.isSome then
      { st with pcs := mset targetId (addIceCandidate pc d.signal) st.pcs }
    else
      { st with pendingIceCandidates := bufPush st.pendingIceCandidates targetId d.signal }
  | none =>
    { st with pendingIceCandidates := bufPush st.pendingIceCandidates targetId d.signal }

/-- The offer handler: apply the remote description, flush the buffered
candidates stored under the literal host key when that buffer is non-empty,
create and apply an answer (the created answer is the ans argument), and send
the answer back to the sender.  Guarded by the connection existing. -/
def handleOffer (isHost : Bool) (joinCode : String) (st : Orch) (d : ClientSig) (ans : String) : Orch × List WireOut :=
  let key := iceKey isHost d
  match mget key st.pcs with
  | none => (st, [])
  | some pc =>
    let pc1 := setRemote pc d.signal
    let cands := (mget "host" st.pendingIceCandidates).getD []
    let pc2 := cands.foldl addIceCandidate pc1
    let buf2 := if cands.length > 0 then mset "host" ([] : List String) st.pendingIceCandidates else st.pendingIceCandidates
    let pc3 : RTCPeer := { pc2 with localDescription := some ans }
    ({ st with pcs := mset key pc3 st.pcs, pendingIceCandidates := buf2 },
     [{ type := "answer", sessionId := joinCode, targetId := d.senderId, signal := ans }])

/-- The answer handler: apply the remote description and nothing else; in
particular the pending candidate buffer is not consulted.  Guarded by the
connection existing. -/
def handleAnswer (isHost : Bool) (st : Orch) (d : ClientSig) : Orch :=
  let key := iceKey isHost d
  match mget key st.pcs with
  | none => st
  | some pc => { st with pcs := mset key (setRemote pc d.signal) st.pcs }

/-- removePeer: drop the peer from the peers list, close and drop its peer
connection, and drop its data channel.  No signaling message is sent. -/
def removePeer (st : Orch) (clientId : String) : Orch :=
  { st with peers := st.peers.filter (fun p => decide (p.id ≠ clientId)),
            pcs := mdel clientId st.pcs,
            channels := mdel clientId st.channels }

/-- resetConnections: close every peer connection and restore the initial
empty state of the listed fields.  The connectingPeers set and the
isConnecting flag are not touched by the source. -/
def resetConnections (st : Orch) : Orch :=
  { st with pcs := [], channels := [], peers := [], pendingClients := [],
            remoteStream := none, isSessionReady := false, currentSessionCode := "",
            signalingQueue := [], pendingIceCandidates := [] }

/-- The trailing setConnectingPeers call of the failed and disconnected arms:
clear isConnecting when the connecting set is empty. -/
def settleConnecting (st : Orch) : Orch :=
  if st.connectingPeers.isEmpty then { st with isConnecting := false } else st

/-- The failed and disconnected arms of onconnectionstatechange: remove the
target from connectingPeers, then evict just that peer on the host side or
reset everything on the client side, then clear isConnecting when the set
became empty.  No signaling message is emitted on either side. -/
def onConnectionFailure (isHost : Bool) (st : Orch) (targetId : String) : Orch × List WireOut :=
  let st1 := { st with connectingPeers := st.connectingPeers.filter (fun x => decide (x ≠ targetId)) }
  let st2 := if isHost then removePeer st1 targetId else resetConnections st1
  (settleConnecting st2, [])

/-- The state effect of createPeerConnection: store a fresh connection under
the target key, closing and replacing any existing one, and on the host side
also open the input data channel for that target. -/
def createPeerConnection (isHost : Bool) (st : Orch) (targetId : String) : Orch :=
  let st1 := { st with pcs := mset targetId ({ } : RTCPeer) st.pcs }
  if isHost then { st1 with channels := mset targetId "input-channel" st1.channels }
  else st1

/-- The signaling dispatcher of the useWebRTC hook: the switch over the parsed
message type.  This is the function the live subscription registers, so every
inbound message runs through it directly.  It never appends to signalingQueue:
the only branches touching the queue are the resets, which clear it.  The
created answer of the offer branch is the ans argument. -/
def handleSignalingMessage (isHost : Bool) (joinCode ans : String) (st : Orch) (d : ClientSig) :
    Orch × List WireOut :=
  if d.type = "session-created" then
    ({ st with currentSessionCode := d.sessionId, isSessionReady := true }, [])
  else if d.type = "session-joined" then
    ({ createPeerConnection isHost st "host" with isSessionReady := true }, [])
  else if d.type = "client-request-join" then
    ({ st with pendingClients := st.pendingClients ++ [(d.clientId, d.sessionId)] }, [])
  else if d.type = "peer-approved" then
    ({ st with peers := st.peers ++ [Peer.mk d.clientId ("Peer " ++ d.clientId) "Connecting"],
               pendingClients := st.pendingClients.filter (fun c => decide (c.1 ≠ d.clientId)) }, [])
  else if d.type = "session-rejected" then
    (resetConnections st, [])
  else if d.type = "offer" then
    match mget (iceKey isHost d) st.pcs with
    | some _ => handleOffer isHost joinCode st d ans
    | none => (st, [])
  else if d.type = "answer" then
    match mget (iceKey isHost d) st.pcs with
    | some _ => (handleAnswer isHost st d, [])
    | none => (st, [])
  else if d.type = "candidate" then
    (handleIceCandidate isHost st d, [])
  else if d.type = "host-disconnected" then
    (resetConnections st, [])
  else if d.type = "peer-disconnected" then
    (removePeer st d.clientId, [])
  else if d.type = "client-disconnected" then
    ({ st with pendingClients := st.pendingClients.filter (fun c => decide (c.1 ≠ d.clientId)) }, [])
  else if d.type = "session-not-found" then
    (st, [])
  else if d.type = "client-connected" then
    (if isHost = true ∧ d.senderId ≠ "" then
      { st with peers := st.peers.map (fun p => if p.id = d.senderId then { p with status := "Connected" } else p) }
     else st, [])
  else (st, [])

/-- The WebSocket listener gate of the hook: queue a message when the session
is not ready and the message is not session-created or session-joined;
otherwise hand it to the signaling handler at once.  The second component
lists the messages handed to the handler.  The hook defines this function
inside an effect but never registers it anywhere: the live subscription in
SessionManagement passes inbound messages to handleSignalingMessage directly. -/
def handleWebSocketMessage (st : Orch) (m : ClientSig) : Orch × List ClientSig :=
  if st.isSessionReady = false ∧ m.type ∉ ["session-created", "session-joined"] then
    ({ st with signalingQueue := st.signalingQueue ++ [m] }, [])
  else (st, [m])

/-- The queue processor: when the session is ready and the queue is non-empty,
clear the queue and hand every queued message to the handler in order.  As
nothing ever appends to the queue in the live wiring, the ready-and-non-empty
branch is unreachable in a run. -/
def processSignalingQueue (st : Orch) : Orch × List ClientSig :=
  if st.isSessionReady = true ∧ st.signalingQueue ≠ [] then
    ({ st with signalingQueue := [] }, st.signalingQueue)
  else (st, [])

/-- A JS Set of peer ids. -/
structure JsSet where
  elems : List String
deriving DecidableEq

/-- The size property of a JS Set. -/
def JsSet.size (s : JsSet) : Nat := s.elems.length

/-- Reading a length property off a JS Set: a Set exposes size and has no
length property, so the read yields undefined, modelled as none. -/
def JsSet.jsLength (_ : JsSet) : Option Nat := none

/-- A JS greater-than comparison against zero: comparing undefined with a
number is false in JS. -/
def jsGtZero : Option Nat → Bool
  | none => false
  | some n => decide (0 < n)

/-- The guard of the client connection timeout effect, as written in the
source: not host, isConnecting, and connectingPeers.length greater than zero,
where connectingPeers is a JS Set. -/
def connectionTimeoutArmed (isHost : Bool) (isConnecting : Bool) (connectingPeers : JsSet) : Bool :=
  !isHost && isConnecting && jsGtZero connectingPeers.jsLength

/-- A data channel control message; the body stands for the remaining JSON
fields. -/
structure CtrlMsg where
  type : String := ""
  body : String := ""
deriving DecidableEq

/-- What the host does with one inbound data channel message. -/
inductive CtrlAction
  | updateCursor (peerId : String) (body : String)
  | inject (m : CtrlMsg)
  | discard
deriving DecidableEq

/-- JS truthiness of the type field: the empty string stands for a missing or
empty type and is falsy. -/
def jsTruthy (s : String) : Bool := !(s == "")

/-- The six input event kinds a controlling client can emit. -/
def inputEventTypes : List String :=
  ["mousemove", "mousedown", "mouseup", "keydown", "keyup", "scroll"]

/-- The data channel message handler of the useRemoteControl hook:
cursor-position only updates the host cursor overlay and is never injected;
any other message with a truthy type is injected exactly when this side is the
host and the sending peer is in the granted control set; everything else is
discarded. -/
def onDataChannelMessage (isHost : Bool) (granted : List String) (peerId : String) (m : CtrlMsg) : CtrlAction :=
  if m.type = "cursor-position" then
    if isHost then CtrlAction.updateCursor peerId m.body else CtrlAction.discard
  else if jsTruthy m.type && isHost && decide (peerId ∈ granted) then
    CtrlAction.inject m
  else CtrlAction.discard

/-- Toggling control for a peer: a pure update of the granted set held by the
host, removing the peer when present and adding it when absent.  The source
performs no network send and no data channel operation here. -/
def handleToggleControl (granted : List String) (peerId : String) : List String :=
  if decide (peerId ∈ granted) then granted.filter (fun x => decide (x ≠ peerId))
  else granted ++ [peerId]

theorem mget_mset_self {κ α : Type} [DecidableEq κ] (k : κ) (v : α) (m : List (κ × α)) :
    mget k (mset k v m) = some v := by
  induction m with
  | nil => simp [mset, mget]
  | cons e rest ih =>
    by_cases h : e.1 = k
    · simp [mset, mget, h]
    · simp [mset, mget, h, ih]

theorem mget_mset_ne {κ α : Type} [DecidableEq κ] {k k2 : κ} (v : α) (m : List (κ × α))
    (h : k2 ≠ k) : mget k2 (mset k v m) = mget k2 m := by
  induction m with
  | nil => simp [mset, mget, h, Ne.symm h]
  | cons e rest ih =>
    by_cases he : e.1 = k
    · subst he
      simp [mset, mget, h, Ne.symm h]
    · simp only [mset, if_neg he]
      by_cases h2 : e.1 = k2
      · simp [mget, h2]
      · simp [mget, h2, ih]

theorem mem_mset {κ α : Type} [DecidableEq κ] {k : κ} {v : α} {m : List (κ × α)}
    {x : κ × α} (h : x ∈ mset k v m) : x = (k, v) ∨ x ∈ m := by
  induction m with
  | nil => simpa [mset] using h
  | cons e rest ih =>
    by_cases he : e.1 = k
    · simp only [mset, if_pos he, List.mem_cons] at h
      rcases h with h | h
      · exact Or.inl h
      · exact Or.inr (List.mem_cons_of_mem _ h)
    · simp only [mset, if_neg he, List.mem_cons] at h
      rcases h with h | h
      · exact Or.inr (h ▸ List.mem_cons_self _ _)
      · rcases ih h with h2 | h2
        · exact Or.inl h2
        · exact Or.inr (List.mem_cons_of_mem _ h2)

theorem mget_mem {κ α : Type} [DecidableEq κ] {k : κ} {v : α} {m : List (κ × α)}
    (h : mget k m = some v) : (k, v) ∈ m := by
  induction m with
  | nil => simp [mget] at h
  | cons e rest ih =>
    by_cases he : e.1 = k
    · simp only [mget, if_pos he] at h
      cases h
      cases e
      simp_all
    · simp only [mget, if_neg he] at h
      exact List.mem_cons_of_mem _ (ih h)

theorem mhas_mset {κ α : Type} [DecidableEq κ] (x k : κ) (v : α) (m : List (κ × α)) :
    mhas x (mset k v m) = true ↔ x = k ∨ mhas x m = true := by
  by_cases h : x = k
  · subst h
    simp [mhas, mget_mset_self]
  · simp [mhas, mget_mset_ne v m h, h]

theorem mhas_mdel_self {κ α : Type} [DecidableEq κ] (k : κ) (m : List (κ × α)) :
    mhas k (mdel k m) = false := by
  induction m with
  | nil => simp [mdel, mhas, mget]
  | cons e rest ih =>
    by_cases he : e.1 = k
    · simpa [mdel, he] using ih
    · simpa [mdel, mhas, mget, he] using ih

theorem mhas_mdel {κ α : Type} [DecidableEq κ] {x k : κ} {m : List (κ × α)}
    (h : mhas x (mdel k m) = true) : mhas x m = true := by
  induction m with
  | nil => simp [mdel, mhas, mget] at h
  | cons e rest ih =>
    by_cases he : e.1 = k
    · simp only [mdel, if_pos he] at h
      by_cases hx : e.1 = x
      · simp [mhas, mget, hx]
      · simpa [mhas, mget, hx] using ih h
    · by_cases hx : e.1 = x
      · simp [mhas, mget, hx]
      · simp only [mdel, if_neg he] at h
        simp only [mhas, mget, if_neg hx] at h ⊢
        exact ih h

/-- Claim C3, amended: handling create-session always succeeds; the registry
derives a code of at most 4 characters from the single random draw, stores the
caller as host under that code with no uniqueness check against active sessions
(a collision silently replaces the stored session), and replies session-created
with that code to the caller only. -/
theorem create_session_spec (rnd : String) (st : Registry) (ws : Nat) (d : SigData)
    (h : d.type = "create-session") :
    handleMessage rnd st ws d =
      ({ st with sessions := mset (codeOf rnd) ⟨ws, [], []⟩ st.sessions },
       [(ws, { type := "session-created", sessionId := codeOf rnd })]) ∧
    (codeOf rnd).length ≤ 4 := by
  refine ⟨by simp [handleMessage, h, createSessionStep], ?_⟩
  show (strUpper (strTake (strDrop rnd 2) 4)).data.length ≤ 4
  simp only [strUpper, strTake, strDrop, List.length_map, List.length_take]
  omega

/-- Witness for create_session_spec at a concrete draw and the empty registry. -/
theorem create_session_spec_witness :
    handleMessage "0.abcdxyz" ⟨[], []⟩ 0 { type := "create-session" } =
      (⟨[("ABCD", ⟨0, [], []⟩)], []⟩,
       [(0, { type := "session-created", sessionId := "ABCD" })]) := by
  have h := (create_session_spec "0.abcdxyz" ⟨[], []⟩ 0 { type := "create-session" } rfl).1
  exact h.trans (by decide)

/-- Claim C3 fails as stated: the generated session code is not guaranteed
unique among active sessions and no collision retry exists.  With session ABCD
active (host transport 7, with a pending and an approved client), a draw whose
code is again ABCD makes create-session silently replace that session with a
fresh one hosted by the caller. -/
theorem create_session_counterexample :
    mhas (codeOf "0.abcdxyz")
      (Registry.mk [("ABCD", ⟨7, [("p1", 3)], [("a1", 4)]⟩)] []).sessions = true ∧
    (handleMessage "0.abcdxyz" ⟨[("ABCD", ⟨7, [("p1", 3)], [("a1", 4)]⟩)], []⟩ 1
        { type := "create-session" }).1.sessions = [("ABCD", ⟨1, [], []⟩)] := by
  constructor
  · decide
  · decide

/-- Claim C6: approve-client is effective exactly when the caller is the
session host and the id is pending; then the id moves from pending to approved,
the client gets session-joined and the host gets peer-approved; in every other
case the registry state is unchanged and no message is emitted. -/
theorem approve_client_gate (rnd : String) (st : Registry) (ws : Nat) (d : SigData)
    (h : d.type = "approve-client") :
    (∀ s cws, mget d.sessionId st.sessions = some s → s.hostWs = ws →
      mget d.clientId s.pendingClients = some cws →
      handleMessage rnd st ws d =
        (Registry.mk (mset d.sessionId (Session.mk s.hostWs (mdel d.clientId s.pendingClients) (mset d.clientId cws s.approvedClients)) st.sessions) st.wsClientId,
         [(cws, { type := "session-joined", sessionId := d.sessionId, clientId := d.clientId }),
          (s.hostWs, { type := "peer-approved", clientId := d.clientId })])) ∧
    ((¬ ∃ s, mget d.sessionId st.sessions = some s ∧ s.hostWs = ws ∧
        mhas d.clientId s.pendingClients = true) →
      handleMessage rnd st ws d = (st, [])) := by
  constructor
  · intro s cws hs hw hc
    simp [handleMessage, h, approveClientStep, hs, hw, hc]
  · intro hno
    rcases hs : mget d.sessionId st.sessions with _ | s
    · simp [handleMessage, h, approveClientStep, hs]
    · by_cases hw : s.hostWs = ws
      · rcases hc : mget d.clientId s.pendingClients with _ | cws
        · simp [handleMessage, h, approveClientStep, hs, hw, hc]
        · exact absurd ⟨s, hs, hw, by simp [mhas, hc]⟩ hno
      · simp [handleMessage, h, approveClientStep, hs, hw]

/-- Witness for approve_client_gate: both the effective case and the no-op
case at concrete registries. -/
theorem approve_client_gate_witness :
    handleMessage "" ⟨[("ABCD", ⟨0, [("c1", 1)], []⟩)], [(1, "c1")]⟩ 0
        { type := "approve-client", sessionId := "ABCD", clientId := "c1" } =
      (⟨[("ABCD", ⟨0, [], [("c1", 1)]⟩)], [(1, "c1")]⟩,
       [(1, { type := "session-joined", sessionId := "ABCD", clientId := "c1" }),
        (0, { type := "peer-approved", clientId := "c1" })]) ∧
    handleMessage "" ⟨[("ABCD", ⟨0, [], [("c1", 1)]⟩)], [(1, "c1")]⟩ 0
        { type := "approve-client", sessionId := "ABCD", clientId := "c1" } =
      (⟨[("ABCD", ⟨0, [], [("c1", 1)]⟩)], [(1, "c1")]⟩, []) := by
  constructor
  · have h := approve_client_gate "" ⟨[("ABCD", ⟨0, [("c1", 1)], []⟩)], [(1, "c1")]⟩ 0 { type := "approve-client", sessionId := "ABCD", clientId := "c1" } rfl
    have h1 := h.1 (Session.mk 0 [("c1", 1)] []) 1 (by decide) (by decide) (by decide)
    exact h1.trans (by decide)
  · have h := approve_client_gate "" ⟨[("ABCD", ⟨0, [], [("c1", 1)]⟩)], [(1, "c1")]⟩ 0 { type := "approve-client", sessionId := "ABCD", clientId := "c1" } rfl
    refine h.2 ?_
    rintro ⟨s, hs, hw, hp⟩
    simp only [mget, Registry.sessions] at hs
    simp at hs
    subst hs
    simp [mhas, mget] at hp

/-- Claim C10: the registry has no handler case for peer-disconnected, so such
a message changes no registry state and emits nothing; in particular an
approved client named in it stays in the approved map. -/
theorem peer_disconnected_ignored (rnd : String) (st : Registry) (ws : Nat) (d : SigData)
    (h : d.type = "peer-disconnected") :
    handleMessage rnd st ws d = (st, []) ∧
    ∀ sid s, mget sid st.sessions = some s →
      mget sid (handleMessage rnd st ws d).1.sessions = some s := by
  have he : handleMessage rnd st ws d = (st, []) := by simp [handleMessage, h]
  exact ⟨he, fun sid s hs => by rw [he]; exact hs⟩

/-- Witness for peer_disconnected_ignored: a host revocation message naming an
approved client is ignored and the client stays approved. -/
theorem peer_disconnected_ignored_witness :
    handleMessage "" ⟨[("ABCD", ⟨0, [], [("c1", 1)]⟩)], [(1, "c1")]⟩ 0
        { type := "peer-disconnected", sessionId := "ABCD", clientId := "c1" } =
      (⟨[("ABCD", ⟨0, [], [("c1", 1)]⟩)], [(1, "c1")]⟩, []) ∧
    mhas "c1" (Session.mk 0 [] [("c1", 1)]).approvedClients = true :=
  ⟨(peer_disconnected_ignored "" ⟨[("ABCD", ⟨0, [], [("c1", 1)]⟩)], [(1, "c1")]⟩ 0
      { type := "peer-disconnected", sessionId := "ABCD", clientId := "c1" } rfl).1,
   by decide⟩

theorem relayClientBranch_first (st : Registry) (ws : Nat) (s : Session) (d : SigData) :
    (relayClientBranch st ws s d).1 = st := by
  rcases hc : mget ws st.wsClientId with _ | cid
  · simp [relayClientBranch, hc]
  · by_cases ha : mhas cid s.approvedClients
    · simp [relayClientBranch, hc, ha]
    · simp [relayClientBranch, hc, ha]

theorem relayStep_first (st : Registry) (ws : Nat) (d : SigData) :
    (relayStep st ws d).1 = st := by
  rcases hs : mget d.sessionId st.sessions with _ | s
  · simp [relayStep, hs]
  · by_cases hw : s.hostWs = ws
    · rcases ht : mget d.targetId s.approvedClients with _ | tws
      · simp [relayStep, hs, hw, ht, relayClientBranch_first]
      · simp [relayStep, hs, hw, ht]
    · simp [relayStep, hs, hw, relayClientBranch_first]

theorem clientConnectedStep_first (st : Registry) (ws : Nat) (d : SigData) :
    (clientConnectedStep st ws d).1 = st := by
  rcases hs : mget d.sessionId st.sessions with _ | s
  · simp [clientConnectedStep, hs]
  · rcases hc : mget ws st.wsClientId with _ | cid
    · simp [clientConnectedStep, hs, hc]
    · by_cases ha : mhas cid s.approvedClients
      · simp [clientConnectedStep, hs, hc, ha]
      · simp [clientConnectedStep, hs, hc, ha]

/-- Claim C4: relayed offer, answer, candidate and client-connected messages
never change registry state, their forwarded senderId is the relaying
transport's own authenticated id (the literal host id when the sender is the
session host, else the registry-assigned client id stored on the transport)
and never the senderId asserted in the inbound message; and when no forward
condition holds the message is dropped with no emission. -/
theorem relay_sender_authenticated (rnd : String) (st : Registry) (ws : Nat)
    (d : SigData) (x : String)
    (h : d.type = "offer" ∨ d.type = "answer" ∨ d.type = "candidate" ∨
      d.type = "client-connected") :
    (handleMessage rnd st ws d).1 = st ∧
    handleMessage rnd st ws { d with senderId := x } = handleMessage rnd st ws d ∧
    (∀ o, o ∈ (handleMessage rnd st ws d).2 →
      (o.2.senderId = "host" ∧ ∃ s, mget d.sessionId st.sessions = some s ∧ s.hostWs = ws) ∨
      mget ws st.wsClientId = some o.2.senderId) ∧
    (∀ s, mget d.sessionId st.sessions = some s →
      ¬(s.hostWs = ws ∧ mhas d.targetId s.approvedClients = true) →
      (∀ cid, mget ws st.wsClientId = some cid → mhas cid s.approvedClients = false) →
      (handleMessage rnd st ws d).2 = []) ∧
    (mget d.sessionId st.sessions = none → (handleMessage rnd st ws d).2 = []) := by
  have hred : handleMessage rnd st ws d =
      (if d.type = "client-connected" then clientConnectedStep st ws d
       else relayStep st ws d) := by
    rcases h with h | h | h | h <;> simp [handleMessage, h]
  refine ⟨?_, rfl, ?_, ?_, ?_⟩
  · rw [hred]
    by_cases hcc : d.type = "client-connected"
    · rw [if_pos hcc]
      exact clientConnectedStep_first st ws d
    · rw [if_neg hcc]
      exact relayStep_first st ws d
  · rw [hred]
    by_cases hcc : d.type = "client-connected"
    · rw [if_pos hcc]
      intro o ho
      rcases hs : mget d.sessionId st.sessions with _ | s
      · simp [clientConnectedStep, hs] at ho
      · rcases hc : mget ws st.wsClientId with _ | cid
        · simp [clientConnectedStep, hs, hc] at ho
        · by_cases ha : mhas cid s.approvedClients
          · simp only [clientConnectedStep, hs, hc, if_pos ha, List.mem_singleton] at ho
            subst ho
            exact Or.inr (by simp [hc])
          · simp [clientConnectedStep, hs, hc, ha] at ho
    · rw [if_neg hcc]
      intro o ho
      rcases hs : mget d.sessionId st.sessions with _ | s
      · simp [relayStep, hs] at ho
      · have hclient : ∀ o2, o2 ∈ (relayClientBranch st ws s d).2 →
            mget ws st.wsClientId = some o2.2.senderId := by
          intro o2 ho2
          rcases hc : mget ws st.wsClientId with _ | cid
          · simp [relayClientBranch, hc] at ho2
          · by_cases ha : mhas cid s.approvedClients
            · simp only [relayClientBranch, hc, if_pos ha, List.mem_singleton] at ho2
              subst ho2
              exact by simp [hc]
            · simp [relayClientBranch, hc, ha] at ho2
        by_cases hw : s.hostWs = ws
        · rcases ht : mget d.targetId s.approvedClients with _ | tws
          · simp only [relayStep, hs, if_pos hw, ht] at ho
            exact Or.inr (hclient o ho)
          · simp only [relayStep, hs, if_pos hw, ht, List.mem_singleton] at ho
            subst ho
            exact Or.inl ⟨rfl, s, rfl, hw⟩
        · simp only [relayStep, hs, if_neg hw] at ho
          exact Or.inr (hclient o ho)
  · rw [hred]
    intro s hs hne hforall
    have hclient : (relayClientBranch st ws s d).2 = [] := by
      rcases hc : mget ws st.wsClientId with _ | cid
      · simp [relayClientBranch, hc]
      · simp [relayClientBranch, hc, hforall cid hc]
    by_cases hcc : d.type = "client-connected"
    · rw [if_pos hcc]
      rcases hc : mget ws st.wsClientId with _ | cid
      · simp [clientConnectedStep, hs, hc]
      · simp [clientConnectedStep, hs, hc, hforall cid hc]
    · rw [if_neg hcc]
      by_cases hw : s.hostWs = ws
      · rcases ht : mget d.targetId s.approvedClients with _ | tws
        · simp [relayStep, hs, hw, ht, hclient]
        · exact absurd ⟨hw, by simp [mhas, ht]⟩ hne
      · simp [relayStep, hs, hw, hclient]
  · rw [hred]
    intro hs
    by_cases hcc : d.type = "client-connected"
    · rw [if_pos hcc]
      simp [clientConnectedStep, hs]
    · rw [if_neg hcc]
      simp [relayStep, hs]

/-- Witness for relay_sender_authenticated: a client relaying a candidate with
a forged senderId field; the forward is tagged with its own id. -/
theorem relay_sender_authenticated_witness :
    (handleMessage "" ⟨[("ABCD", ⟨0, [], [("c1", 1)]⟩)], [(1, "c1")]⟩ 1
        { type := "candidate", sessionId := "ABCD", targetId := "host",
          senderId := "host", signal := "ice1" }).1 =
      (⟨[("ABCD", ⟨0, [], [("c1", 1)]⟩)], [(1, "c1")]⟩ : Registry) ∧
    handleMessage "" ⟨[("ABCD", ⟨0, [], [("c1", 1)]⟩)], [(1, "c1")]⟩ 1
        { type := "candidate", sessionId := "ABCD", targetId := "host",
          senderId := "forged", signal := "ice1" } =
      handleMessage "" ⟨[("ABCD", ⟨0, [], [("c1", 1)]⟩)], [(1, "c1")]⟩ 1
        { type := "candidate", sessionId := "ABCD", targetId := "host",
          senderId := "host", signal := "ice1" } := by
  have h := relay_sender_authenticated "" ⟨[("ABCD", ⟨0, [], [("c1", 1)]⟩)], [(1, "c1")]⟩ 1
    { type := "candidate", sessionId := "ABCD", targetId := "host",
      senderId := "host", signal := "ice1" } "forged"
    (by decide)
  exact ⟨h.1, h.2.1⟩

theorem mem_keys_of_mget {κ α : Type} [DecidableEq κ] {k : κ} {v : α} {m : List (κ × α)}
    (h : mget k m = some v) : k ∈ m.map Prod.fst := by
  induction m with
  | nil => simp [mget] at h
  | cons e rest ih =>
    by_cases he : e.1 = k
    · simp [he]
    · simp only [mget, if_neg he] at h
      simp [ih h]

theorem mget_none_of_not_mem_keys {κ α : Type} [DecidableEq κ] {k : κ} {m : List (κ × α)}
    (h : k ∉ m.map Prod.fst) : mget k m = none := by
  rcases hg : mget k m with _ | v
  · rfl
  · exact absurd (mem_keys_of_mget hg) h

theorem mhas_filter {κ α : Type} [DecidableEq κ] {x : κ} {p : κ × α → Bool}
    {m : List (κ × α)} (h : mhas x (m.filter p) = true) : mhas x m = true := by
  induction m with
  | nil => simp [mhas, mget] at h
  | cons e rest ih =>
    by_cases hx : e.1 = x
    · simp [mhas, mget, hx]
    · simp only [mhas, mget, if_neg hx]
      by_cases hp : p e
      · simp only [List.filter, hp] at h
        simp only [mhas, mget, if_neg hx] at h
        exact ih h
      · simp only [List.filter, hp] at h
        exact ih h

theorem disjoint_createStep (rnd : String) (st : Registry) (ws : Nat)
    (h : RegistryDisjoint st) : RegistryDisjoint (createSessionStep rnd st ws).1 := by
  intro e he
  simp only [createSessionStep] at he
  rcases mem_mset he with he2 | he2
  · subst he2
    intro cid hc
    simp [mhas, mget] at hc
  · exact h e he2

theorem disjoint_joinStep (rnd : String) (st : Registry) (ws : Nat) (d : SigData)
    (hjoin : d.type = "join-session") (hf : freshDraw rnd st d = true)
    (h : RegistryDisjoint st) : RegistryDisjoint (joinSessionStep rnd st ws d).1 := by
  rcases hs : mget d.sessionId st.sessions with _ | s
  · simp only [joinSessionStep, hs]
    exact h
  · have happr : mhas (clientIdOf rnd) s.approvedClients = false := by
      have hf2 := hf
      simp [freshDraw, hjoin, hs] at hf2
      exact hf2.2
    intro e he
    simp only [joinSessionStep, hs] at he
    rcases mem_mset he with he2 | he2
    · subst he2
      intro cid hc
      obtain ⟨hA, hB⟩ := hc
      rcases (mhas_mset cid (clientIdOf rnd) ws s.pendingClients).1 hA with rfl | hP
      · rw [happr] at hB
        cases hB
      · exact h (d.sessionId, s) (mget_mem hs) cid ⟨hP, hB⟩
    · exact h e he2

theorem disjoint_approveStep (st : Registry) (ws : Nat) (d : SigData)
    (h : RegistryDisjoint st) : RegistryDisjoint (approveClientStep st ws d).1 := by
  rcases hs : mget d.sessionId st.sessions with _ | s
  · simp only [approveClientStep, hs]
    exact h
  · by_cases hw : s.hostWs = ws
    · rcases hc : mget d.clientId s.pendingClients with _ | cws
      · simp only [approveClientStep, hs, if_pos hw, hc]
        exact h
      · intro e he
        simp only [approveClientStep, hs, if_pos hw, hc] at he
        rcases mem_mset he with he2 | he2
        · subst he2
          intro cid hcc
          obtain ⟨hA, hB⟩ := hcc
          by_cases hcid : cid = d.clientId
          · subst hcid
            rw [mhas_mdel_self] at hA
            cases hA
          · rcases (mhas_mset cid d.clientId cws s.approvedClients).1 hB with h2 | h2
            · exact absurd h2 hcid
            · exact h (d.sessionId, s) (mget_mem hs) cid ⟨mhas_mdel hA, h2⟩
        · exact h e he2
    · simp only [approveClientStep, hs, if_neg hw]
      exact h

theorem disjoint_rejectStep (st : Registry) (ws : Nat) (d : SigData)
    (h : RegistryDisjoint st) : RegistryDisjoint (rejectClientStep st ws d).1 := by
  rcases hs : mget d.sessionId st.sessions with _ | s
  · simp only [rejectClientStep, hs]
    exact h
  · by_cases hw : s.hostWs = ws
    · rcases hc : mget d.clientId s.pendingClients with _ | cws
      · simp only [rejectClientStep, hs, if_pos hw, hc]
        exact h
      · intro e he
        simp only [rejectClientStep, hs, if_pos hw, hc] at he
        rcases mem_mset he with he2 | he2
        · subst he2
          intro cid hcc
          obtain ⟨hA, hB⟩ := hcc
          exact h (d.sessionId, s) (mget_mem hs) cid ⟨mhas_mdel hA, hB⟩
        · exact h e he2
    · simp only [rejectClientStep, hs, if_neg hw]
      exact h

theorem disjoint_close (op : Nat → Bool) (st : Registry) (ws : Nat)
    (h : RegistryDisjoint st) : RegistryDisjoint (handleClose op st ws).1 := by
  intro e he
  simp only [handleClose, List.mem_filterMap] at he
  obtain ⟨a, ha, hfa⟩ := he
  by_cases hw : a.2.hostWs = ws
  · simp [closeOne, hw] at hfa
  · simp only [closeOne, if_neg hw, Option.some.injEq] at hfa
    subst hfa
    intro cid hcc
    obtain ⟨hA, hB⟩ := hcc
    exact h a ha cid ⟨mhas_filter hA, mhas_filter hB⟩

theorem disjoint_msg (rnd : String) (st : Registry) (ws : Nat) (d : SigData)
    (hf : freshDraw rnd st d = true) (h : RegistryDisjoint st) :
    RegistryDisjoint (handleMessage rnd st ws d).1 := by
  by_cases h1 : d.type = "create-session"
  · rw [show handleMessage rnd st ws d = createSessionStep rnd st ws from by simp [handleMessage, h1]]
    exact disjoint_createStep rnd st ws h
  · by_cases h2 : d.type = "join-session"
    · rw [show handleMessage rnd st ws d = joinSessionStep rnd st ws d from by simp [handleMessage, h1, h2]]
      exact disjoint_joinStep rnd st ws d h2 hf h
    · by_cases h3 : d.type = "approve-client"
      · rw [show handleMessage rnd st ws d = approveClientStep st ws d from by simp [handleMessage, h1, h2, h3]]
        exact disjoint_approveStep st ws d h
      · by_cases h4 : d.type = "reject-client"
        · rw [show handleMessage rnd st ws d = rejectClientStep st ws d from by simp [handleMessage, h1, h2, h3, h4]]
          exact disjoint_rejectStep st ws d h
        · by_cases h5 : d.type = "client-connected"
          · rw [show handleMessage rnd st ws d = clientConnectedStep st ws d from by simp [handleMessage, h1, h2, h3, h4, h5]]
            rw [show (clientConnectedStep st ws d).1 = st from clientConnectedStep_first st ws d]
            exact h
          · by_cases h6 : d.type = "offer" ∨ d.type = "answer" ∨ d.type = "candidate"
            · rw [show handleMessage rnd st ws d = relayStep st ws d from by simp [handleMessage, h1, h2, h3, h4, h5, h6]]
              rw [show (relayStep st ws d).1 = st from relayStep_first st ws d]
              exact h
            · rw [show handleMessage rnd st ws d = (st, []) from by simp [handleMessage, h1, h2, h3, h4, h5, h6]]
              exact h

theorem mhas_of_mem_keys {κ α : Type} [DecidableEq κ] {k : κ} {m : List (κ × α)}
    (h : k ∈ m.map Prod.fst) : mhas k m = true := by
  induction m with
  | nil => simp at h
  | cons e rest ih =>
    by_cases he : e.1 = k
    · simp [mhas, mget, he]
    · simp only [List.map_cons, List.mem_cons] at h
      rcases h with h | h
    -- h : k = e.1 contradicts he
      · exact absurd h.symm he
      · simpa [mhas, mget, he] using ih h

theorem keys_mset {κ α : Type} [DecidableEq κ] (k : κ) (v : α) (m : List (κ × α)) :
    (mset k v m).map Prod.fst =
      if mhas k m then m.map Prod.fst else m.map Prod.fst ++ [k] := by
  induction m with
  | nil => simp [mset, mhas, mget]
  | cons e rest ih =>
    by_cases he : e.1 = k
    · simp [mset, mhas, mget, he]
    · have hh : mhas k (e :: rest) = mhas k rest := by simp [mhas, mget, he]
      by_cases h2 : mhas k rest
      · simp [mset, he, ih, hh, h2]
      · simp [mset, he, ih, hh, h2]

theorem keys_nodup_mset {κ α : Type} [DecidableEq κ] (k : κ) (v : α) (m : List (κ × α))
    (h : (m.map Prod.fst).Nodup) : ((mset k v m).map Prod.fst).Nodup := by
  rw [keys_mset]
  by_cases hh : mhas k m
  · simpa [hh] using h
  · have hk : k ∉ m.map Prod.fst := fun hc => by
      rw [mhas_of_mem_keys hc] at hh
      exact hh rfl
    simp [hh, List.nodup_append, h, hk]

theorem close_keys_sublist (op : Nat → Bool) (ws : Nat) (l : List (String × Session)) :
    ((l.filterMap (fun e => (closeOne op ws e).1)).map Prod.fst).Sublist
      (l.map Prod.fst) := by
  induction l with
  | nil => simp
  | cons a rest ih =>
    rw [List.filterMap_cons]
    by_cases hw : a.2.hostWs = ws
    · simp only [closeOne, if_pos hw]
      exact ih.trans (List.sublist_cons_self _ _)
    · simp only [closeOne, if_neg hw]
      exact List.Sublist.cons₂ _ ih

theorem keysNodup_msg (rnd : String) (st : Registry) (ws : Nat) (d : SigData)
    (h : KeysNodup st) : KeysNodup (handleMessage rnd st ws d).1 := by
  by_cases h1 : d.type = "create-session"
  · rw [show handleMessage rnd st ws d = createSessionStep rnd st ws from by simp [handleMessage, h1]]
    exact keys_nodup_mset _ _ _ h
  · by_cases h2 : d.type = "join-session"
    · rw [show handleMessage rnd st ws d = joinSessionStep rnd st ws d from by simp [handleMessage, h1, h2]]
      rcases hs : mget d.sessionId st.sessions with _ | s
      · simpa [joinSessionStep, hs] using h
      · simp only [joinSessionStep, hs]
        exact keys_nodup_mset _ _ _ h
    · by_cases h3 : d.type = "approve-client"
      · rw [show handleMessage rnd st ws d = approveClientStep st ws d from by simp [handleMessage, h1, h2, h3]]
        rcases hs : mget d.sessionId st.sessions with _ | s
        · simpa [approveClientStep, hs] using h
        · by_cases hw : s.hostWs = ws
          · rcases hc : mget d.clientId s.pendingClients with _ | cws
            · simpa [approveClientStep, hs, hw, hc] using h
            · simp only [approveClientStep, hs, if_pos hw, hc]
              exact keys_nodup_mset _ _ _ h
          · simpa [approveClientStep, hs, hw] using h
      · by_cases h4 : d.type = "reject-client"
        · rw [show handleMessage rnd st ws d = rejectClientStep st ws d from by simp [handleMessage, h1, h2, h3, h4]]
          rcases hs : mget d.sessionId st.sessions with _ | s
          · simpa [rejectClientStep, hs] using h
          · by_cases hw : s.hostWs = ws
            · rcases hc : mget d.clientId s.pendingClients with _ | cws
              · simpa [rejectClientStep, hs, hw, hc] using h
              · simp only [rejectClientStep, hs, if_pos hw, hc]
                exact keys_nodup_mset _ _ _ h
            · simpa [rejectClientStep, hs, hw] using h
        · by_cases h5 : d.type = "client-connected"
          · rw [show handleMessage rnd st ws d = clientConnectedStep st ws d from by simp [handleMessage, h1, h2, h3, h4, h5]]
            rw [show (clientConnectedStep st ws d).1 = st from clientConnectedStep_first st ws d]
            exact h
          · by_cases h6 : d.type = "offer" ∨ d.type = "answer" ∨ d.type = "candidate"
            · rw [show handleMessage rnd st ws d = relayStep st ws d from by simp [handleMessage, h1, h2, h3, h4, h5, h6]]
              rw [show (relayStep st ws d).1 = st from relayStep_first st ws d]
              exact h
            · rw [show handleMessage rnd st ws d = (st, []) from by simp [handleMessage, h1, h2, h3, h4, h5, h6]]
              exact h

theorem keysNodup_close (op : Nat → Bool) (st : Registry) (ws : Nat)
    (h : KeysNodup st) : KeysNodup (handleClose op st ws).1 :=
  List.Nodup.sublist (close_keys_sublist op ws st.sessions) h

theorem freach_keysNodup {st : Registry} (h : FReach st) : KeysNodup st := by
  induction h with
  | init => simp [KeysNodup]
  | msg rnd ws d hst hf ih => exact keysNodup_msg rnd _ ws d ih
  | close op ws hst ih => exact keysNodup_close op _ ws ih

theorem mget_mset_update {κ α : Type} [DecidableEq κ] {k sid : κ} {v s s2 : α}
    {m : List (κ × α)} (h1 : mget sid m = some s) (h2 : mget sid (mset k v m) = some s2) :
    (sid = k ∧ s2 = v) ∨ (sid ≠ k ∧ s2 = s) := by
  by_cases hk : sid = k
  · subst hk
    rw [mget_mset_self] at h2
    exact Or.inl ⟨rfl, (Option.some.inj h2).symm⟩
  · rw [mget_mset_ne _ _ hk, h1] at h2
    exact Or.inr ⟨hk, (Option.some.inj h2).symm⟩

theorem host_stable_msg (rnd : String) (ws : Nat) (d : SigData) (st : Registry)
    (hf : freshDraw rnd st d = true) {sid : String} {s s2 : Session}
    (h1 : mget sid st.sessions = some s)
    (h2 : mget sid (handleMessage rnd st ws d).1.sessions = some s2) :
    s2.hostWs = s.hostWs := by
  by_cases hc1 : d.type = "create-session"
  · rw [show handleMessage rnd st ws d = createSessionStep rnd st ws from by simp [handleMessage, hc1]] at h2
    simp only [createSessionStep] at h2
    rcases mget_mset_update h1 h2 with ⟨hk, _⟩ | ⟨_, hv⟩
    · have hfc : mhas (codeOf rnd) st.sessions = false := by
        have hf2 := hf
        simp [freshDraw, hc1] at hf2
        exact hf2
      subst hk
      have hms : mhas (codeOf rnd) st.sessions = true := by simp [mhas, h1]
      rw [hms] at hfc
      cases hfc
    · rw [hv]
  · by_cases hc2 : d.type = "join-session"
    · rw [show handleMessage rnd st ws d = joinSessionStep rnd st ws d from by simp [handleMessage, hc1, hc2]] at h2
      rcases hs : mget d.sessionId st.sessions with _ | s0
      · simp only [joinSessionStep, hs] at h2
        rw [h1] at h2
        rw [(Option.some.inj h2).symm]
      · simp only [joinSessionStep, hs] at h2
        rcases mget_mset_update h1 h2 with ⟨hk, hv⟩ | ⟨_, hv⟩
        · subst hk
          rw [hs] at h1
          rw [hv, (Option.some.inj h1)]
        · rw [hv]
    · by_cases hc3 : d.type = "approve-client"
      · rw [show handleMessage rnd st ws d = approveClientStep st ws d from by simp [handleMessage, hc1, hc2, hc3]] at h2
        rcases hs : mget d.sessionId st.sessions with _ | s0
        · simp only [approveClientStep, hs] at h2
          rw [h1] at h2
          rw [(Option.some.inj h2).symm]
        · by_cases hw : s0.hostWs = ws
          · rcases hcw : mget d.clientId s0.pendingClients with _ | cws
            · simp only [approveClientStep, hs, if_pos hw, hcw] at h2
              rw [h1] at h2
              rw [(Option.some.inj h2).symm]
            · simp only [approveClientStep, hs, if_pos hw, hcw] at h2
              rcases mget_mset_update h1 h2 with ⟨hk, hv⟩ | ⟨_, hv⟩
              · subst hk
                rw [hs] at h1
                rw [hv, (Option.some.inj h1)]
              · rw [hv]
          · simp only [approveClientStep, hs, if_neg hw] at h2
            rw [h1] at h2
            rw [(Option.some.inj h2).symm]
      · by_cases hc4 : d.type = "reject-client"
        · rw [show handleMessage rnd st ws d = rejectClientStep st ws d from by simp [handleMessage, hc1, hc2, hc3, hc4]] at h2
          rcases hs : mget d.sessionId st.sessions with _ | s0
          · simp only [rejectClientStep, hs] at h2
            rw [h1] at h2
            rw [(Option.some.inj h2).symm]
          · by_cases hw : s0.hostWs = ws
            · rcases hcw : mget d.clientId s0.pendingClients with _ | cws
              · simp only [rejectClientStep, hs, if_pos hw, hcw] at h2
                rw [h1] at h2
                rw [(Option.some.inj h2).symm]
              · simp only [rejectClientStep, hs, if_pos hw, hcw] at h2
                rcases mget_mset_update h1 h2 with ⟨hk, hv⟩ | ⟨_, hv⟩
                · subst hk
                  rw [hs] at h1
                  rw [hv, (Option.some.inj h1)]
                · rw [hv]
            · simp only [rejectClientStep, hs, if_neg hw] at h2
              rw [h1] at h2
              rw [(Option.some.inj h2).symm]
        · by_cases hc5 : d.type = "client-connected"
          · rw [show handleMessage rnd st ws d = clientConnectedStep st ws d from by simp [handleMessage, hc1, hc2, hc3, hc4, hc5],
              show (clientConnectedStep st ws d).1 = st from clientConnectedStep_first st ws d] at h2
            rw [h1] at h2
            rw [(Option.some.inj h2).symm]
          · by_cases hc6 : d.type = "offer" ∨ d.type = "answer" ∨ d.type = "candidate"
            · rw [show handleMessage rnd st ws d = relayStep st ws d from by simp [handleMessage, hc1, hc2, hc3, hc4, hc5, hc6],
                show (relayStep st ws d).1 = st from relayStep_first st ws d] at h2
              rw [h1] at h2
              rw [(Option.some.inj h2).symm]
            · rw [show handleMessage rnd st ws d = (st, []) from by simp [handleMessage, hc1, hc2, hc3, hc4, hc5, hc6]] at h2
              rw [h1] at h2
              rw [(Option.some.inj h2).symm]

theorem mget_close_aux (op : Nat → Bool) (ws : Nat) :
    ∀ (l : List (String × Session)) {sid : String} {s s2 : Session},
      (l.map Prod.fst).Nodup →
      mget sid l = some s →
      mget sid (l.filterMap (fun e => (closeOne op ws e).1)) = some s2 →
      s2.hostWs = s.hostWs := by
  intro l
  induction l with
  | nil =>
    intro sid s s2 _ h1 _
    simp [mget] at h1
  | cons a rest ih =>
    intro sid s s2 hnd h1 h2
    simp only [List.map_cons, List.nodup_cons] at hnd
    by_cases hw : a.2.hostWs = ws
    · have hcons : (a :: rest).filterMap (fun e => (closeOne op ws e).1) =
          rest.filterMap (fun e => (closeOne op ws e).1) := by
        rw [List.filterMap_cons]
        simp only [closeOne, if_pos hw]
      rw [hcons] at h2
      by_cases ha : a.1 = sid
      · have hnot : sid ∉ (rest.filterMap (fun e => (closeOne op ws e).1)).map Prod.fst := by
          intro hc
          exact hnd.1 (ha ▸ (close_keys_sublist op ws rest).subset hc)
        rw [mget_none_of_not_mem_keys hnot] at h2
        cases h2
      · simp only [mget, if_neg ha] at h1
        exact ih hnd.2 h1 h2
    · have hcons : (a :: rest).filterMap (fun e => (closeOne op ws e).1) =
          (a.1, Session.mk a.2.hostWs
            (a.2.pendingClients.filter (fun p => decide (p.2 ≠ ws)))
            (a.2.approvedClients.filter (fun p => decide (p.2 ≠ ws)))) ::
          rest.filterMap (fun e => (closeOne op ws e).1) := by
        have hsome : (closeOne op ws a).1 =
            some (a.1, Session.mk a.2.hostWs
              (a.2.pendingClients.filter (fun p => decide (p.2 ≠ ws)))
              (a.2.approvedClients.filter (fun p => decide (p.2 ≠ ws)))) := by
          simp [closeOne, hw]
        simp only [List.filterMap_cons, hsome]
      rw [hcons] at h2
      by_cases ha : a.1 = sid
      · simp only [mget, if_pos ha] at h1 h2
        rw [← Option.some.inj h2, ← Option.some.inj h1]
      · simp only [mget, if_neg ha] at h1 h2
        exact ih hnd.2 h1 h2

theorem host_stable_close (op : Nat → Bool) (st : Registry) (ws : Nat)
    (hnd : KeysNodup st) {sid : String} {s s2 : Session}
    (h1 : mget sid st.sessions = some s)
    (h2 : mget sid (handleClose op st ws).1.sessions = some s2) :
    s2.hostWs = s.hostWs := by
  simp only [handleClose] at h2
  exact mget_close_aux op ws st.sessions hnd h1 h2

/-- Claim C5 fails as stated: with adversarial random draws, a client id
generated by join-session can collide with an id already approved in the same
session, putting the id in pending and approved at once.  The trace: create
session ABCD, client joins and gets id client1, host approves it, a second
client joins with a colliding draw and id client1 becomes pending again while
still approved. -/
theorem registry_disjoint_counterexample :
    ¬ (∀ st : Registry, Reach st → RegistryDisjoint st) := by
  intro hall
  have r1 := Reach.msg "0.abcdxyz" 0 { type := "create-session" } Reach.init
  have r2 := Reach.msg "0.client1x" 1 { type := "join-session", sessionId := "ABCD" } r1
  have r3 := Reach.msg "" 0 { type := "approve-client", sessionId := "ABCD", clientId := "client1" } r2
  have r4 := Reach.msg "0.client1x" 2 { type := "join-session", sessionId := "ABCD" } r3
  have hd := hall _ r4
  exact hd ("ABCD", ⟨0, [("client1", 2)], [("client1", 1)]⟩) (by decide) "client1" (by decide)

/-- Claim C5, amended: when every random draw is fresh (the generated session
code is not an active code and the generated client id is not already pending
or approved in the joined session), every reachable registry state keeps each
client id in at most one of the pending and approved maps of a session, and
the host of a surviving session never changes across a message step or a
close step.  Without the freshness assumption the code performs no collision
check and the invariant fails. -/
theorem registry_invariants_fresh :
    (∀ st : Registry, FReach st → RegistryDisjoint st) ∧
    (∀ (rnd : String) (ws : Nat) (d : SigData) (st : Registry) (sid : String)
        (s s2 : Session), freshDraw rnd st d = true →
      mget sid st.sessions = some s →
      mget sid (handleMessage rnd st ws d).1.sessions = some s2 →
      s2.hostWs = s.hostWs) ∧
    (∀ (op : Nat → Bool) (ws : Nat) (st : Registry) (sid : String) (s s2 : Session),
      FReach st →
      mget sid st.sessions = some s →
      mget sid (handleClose op st ws).1.sessions = some s2 →
      s2.hostWs = s.hostWs) := by
  refine ⟨?_, ?_, ?_⟩
  · intro st h
    induction h with
    | init =>
      intro e he
      simp at he
    | msg rnd ws d hst hf ih => exact disjoint_msg rnd _ ws d hf ih
    | close op ws hst ih => exact disjoint_close op _ ws ih
  · intro rnd ws d st sid s s2 hf h1 h2
    exact host_stable_msg rnd ws d st hf h1 h2
  · intro op ws st sid s s2 hr h1 h2
    exact host_stable_close op st ws (freach_keysNodup hr) h1 h2

/-- Witness for registry_invariants_fresh: host stability of a concrete
fresh join step on session ABCD. -/
theorem registry_invariants_fresh_witness :
    (Session.mk 7 [("zzzzzzz", 3)] []).hostWs = (Session.mk 7 [] []).hostWs :=
  registry_invariants_fresh.2.1 "0.zzzzzzzq" 3 { type := "join-session", sessionId := "ABCD" }
    ⟨[("ABCD", ⟨7, [], []⟩)], []⟩ "ABCD" ⟨7, [], []⟩ ⟨7, [("zzzzzzz", 3)], []⟩
    (by decide) (by decide) (by decide)

theorem mget_mdel_self {κ α : Type} [DecidableEq κ] (k : κ) (m : List (κ × α)) :
    mget k (mdel k m) = none := by
  have h := mhas_mdel_self k m
  unfold mhas at h
  rcases hg : mget k (mdel k m) with _ | v
  · rfl
  · rw [hg] at h
    cases h

theorem mget_mdel_ne {κ α : Type} [DecidableEq κ] {k k2 : κ} (m : List (κ × α))
    (h : k2 ≠ k) : mget k2 (mdel k m) = mget k2 m := by
  induction m with
  | nil => simp [mdel]
  | cons e rest ih =>
    by_cases he : e.1 = k
    · rw [show mdel k (e :: rest) = mdel k rest from by simp [mdel, he]]
      rw [show mget k2 (e :: rest) = mget k2 rest from by
        simp [mget, show e.1 ≠ k2 from he ▸ fun hc => h hc.symm]]
      exact ih
    · rw [show mdel k (e :: rest) = e :: mdel k rest from by simp [mdel, he]]
      by_cases h2 : e.1 = k2
      · simp [mget, h2]
      · simp [mget, h2, ih]

theorem foldl_addIceCandidate (pc : RTCPeer) (l : List String) :
    l.foldl addIceCandidate pc = { pc with applied := pc.applied ++ l } := by
  induction l generalizing pc with
  | nil => simp
  | cons c rest ih =>
    rw [List.foldl_cons, ih]
    simp [addIceCandidate]

/-- Claim C2 (code bug): the client side connection timeout guard reads the
length property of the connectingPeers JS Set; a Set has size but no length,
so the read is undefined, the comparison with zero is false, and the guard is
false in every state: the 30 second timeout is never scheduled and the forced
reset never happens. -/
theorem timeout_never_armed (isHost isConnecting : Bool) (s : JsSet) :
    connectionTimeoutArmed isHost isConnecting s = false := by
  simp [connectionTimeoutArmed, jsGtZero, JsSet.jsLength]

theorem handleOffer_queue (isHost : Bool) (joinCode : String) (st : Orch)
    (d : ClientSig) (ans : String) :
    (handleOffer isHost joinCode st d ans).1.signalingQueue = st.signalingQueue := by
  rcases h : mget (iceKey isHost d) st.pcs with _ | pc
  · simp [handleOffer, h]
  · simp [handleOffer, h]

theorem handleAnswer_queue (isHost : Bool) (st : Orch) (d : ClientSig) :
    (handleAnswer isHost st d).signalingQueue = st.signalingQueue := by
  rcases h : mget (iceKey isHost d) st.pcs with _ | pc
  · simp [handleAnswer, h]
  · simp [handleAnswer, h]

theorem handleIceCandidate_queue (isHost : Bool) (st : Orch) (d : ClientSig) :
    (handleIceCandidate isHost st d).signalingQueue = st.signalingQueue := by
  rcases h : mget (iceKey isHost d) st.pcs with _ | pc
  · simp [handleIceCandidate, h]
  · by_cases hr : pc.remoteDescription.isSome
    · simp [handleIceCandidate, h, hr]
    · simp [handleIceCandidate, h, hr]

theorem createPeerConnection_queue (isHost : Bool) (st : Orch) (t : String) :
    (createPeerConnection isHost st t).signalingQueue = st.signalingQueue := by
  by_cases hh : isHost = true
  · simp [createPeerConnection, hh]
  · simp [createPeerConnection, hh]

/-- Claim C8 (code bug): the queue gate is dead code.  The hook defines
handleWebSocketMessage but never registers it, and the live subscription in
SessionManagement hands every inbound message directly to
handleSignalingMessage, which never appends to the queue — an empty queue
stays empty under every message, so the drain delivers nothing in any run.
A pre-ready offer on the client side is therefore processed immediately and
silently dropped for lack of a peer connection instead of being queued and
replayed after readiness; the unregistered gate would have queued exactly
such a message, as the claim describes. -/
theorem signaling_queue_gate_dead (isHost : Bool) (joinCode ans : String)
    (st : Orch) (d : ClientSig) :
    (st.signalingQueue = [] →
      (handleSignalingMessage isHost joinCode ans st d).1.signalingQueue = []) ∧
    (st.isSessionReady = false → mget "host" st.pcs = none → d.type = "offer" →
      handleSignalingMessage false joinCode ans st d = (st, [])) ∧
    (st.signalingQueue = [] → processSignalingQueue st = (st, [])) ∧
    (st.isSessionReady = false → d.type ∉ ["session-created", "session-joined"] →
      handleWebSocketMessage st d =
        ({ st with signalingQueue := st.signalingQueue ++ [d] }, [])) := by
  refine ⟨?_, ?_, ?_, ?_⟩
  · intro hq
    by_cases h1 : d.type = "session-created"
    · simp [handleSignalingMessage, h1, hq]
    · by_cases h2 : d.type = "session-joined"
      · simp [handleSignalingMessage, h1, h2, createPeerConnection_queue, hq]
      · by_cases h3 : d.type = "client-request-join"
        · simp [handleSignalingMessage, h1, h2, h3, hq]
        · by_cases h4 : d.type = "peer-approved"
          · simp [handleSignalingMessage, h1, h2, h3, h4, hq]
          · by_cases h5 : d.type = "session-rejected"
            · simp [handleSignalingMessage, h1, h2, h3, h4, h5, resetConnections]
            · by_cases h6 : d.type = "offer"
              · rcases hpc : mget (iceKey isHost d) st.pcs with _ | pc
                · simp [handleSignalingMessage, h1, h2, h3, h4, h5, h6, hpc, hq]
                · simp [handleSignalingMessage, h1, h2, h3, h4, h5, h6, hpc,
                    handleOffer_queue, hq]
              · by_cases h7 : d.type = "answer"
                · rcases hpc : mget (iceKey isHost d) st.pcs with _ | pc
                  · simp [handleSignalingMessage, h1, h2, h3, h4, h5, h6, h7, hpc, hq]
                  · simp [handleSignalingMessage, h1, h2, h3, h4, h5, h6, h7, hpc,
                      handleAnswer_queue, hq]
                · by_cases h8 : d.type = "candidate"
                  · simp [handleSignalingMessage, h1, h2, h3, h4, h5, h6, h7, h8,
                      handleIceCandidate_queue, hq]
                  · by_cases h9 : d.type = "host-disconnected"
                    · simp [handleSignalingMessage, h1, h2, h3, h4, h5, h6, h7, h8, h9,
                        resetConnections]
                    · by_cases h10 : d.type = "peer-disconnected"
                      · simp [handleSignalingMessage, h1, h2, h3, h4, h5, h6, h7, h8, h9,
                          h10, removePeer, hq]
                      · by_cases h11 : d.type = "client-disconnected"
                        · simp [handleSignalingMessage, h1, h2, h3, h4, h5, h6, h7, h8,
                            h9, h10, h11, hq]
                        · by_cases h12 : d.type = "session-not-found"
                          · simp [handleSignalingMessage, h1, h2, h3, h4, h5, h6, h7, h8,
                              h9, h10, h11, h12, hq]
                          · by_cases h13 : d.type = "client-connected"
                            · by_cases h14 : isHost = true ∧ d.senderId ≠ ""
                              · simp [handleSignalingMessage, h1, h2, h3, h4, h5, h6, h7,
                                  h8, h9, h10, h11, h12, h13, h14, hq]
                              · simp [handleSignalingMessage, h1, h2, h3, h4, h5, h6, h7,
                                  h8, h9, h10, h11, h12, h13, h14, hq]
                            · simp [handleSignalingMessage, h1, h2, h3, h4, h5, h6, h7,
                                h8, h9, h10, h11, h12, h13, hq]
  · intro _ hpc htype
    have hkey : iceKey false d = "host" := rfl
    simp [handleSignalingMessage, htype, hkey, hpc]
  · intro hq
    have hn : ¬(st.isSessionReady = true ∧ st.signalingQueue ≠ []) := fun hc => hc.2 hq
    simp only [processSignalingQueue, if_neg hn]
  · intro h1 h2
    simp [handleWebSocketMessage, h1, h2]

/-- Witness for signaling_queue_gate_dead: a pre-ready offer delivered through
the live path leaves the empty initial state unchanged and emits nothing,
draining delivers nothing, while the unregistered gate would have queued it. -/
theorem signaling_queue_gate_dead_witness :
    handleSignalingMessage false "" "" ({ } : Orch)
        { type := "offer", senderId := "host", signal := "sdp1" } = (({ } : Orch), []) ∧
    processSignalingQueue ({ } : Orch) = (({ } : Orch), []) ∧
    handleWebSocketMessage ({ } : Orch) { type := "offer", senderId := "host", signal := "sdp1" } =
      (({ signalingQueue := [{ type := "offer", senderId := "host", signal := "sdp1" }] } : Orch),
       []) := by
  refine ⟨?_, ?_, ?_⟩
  · exact (signaling_queue_gate_dead false "" "" ({ } : Orch)
      { type := "offer", senderId := "host", signal := "sdp1" }).2.1 rfl rfl rfl
  · exact (signaling_queue_gate_dead false "" "" ({ } : Orch) ({ } : ClientSig)).2.2.1 rfl
  · exact ((signaling_queue_gate_dead false "" "" ({ } : Orch)
      { type := "offer", senderId := "host", signal := "sdp1" }).2.2.2 rfl (by decide)).trans
      (by decide)

/-- Claim C1 fails as stated: on the host side, a candidate from client c1
buffered before the answer arrives is never applied once the answer sets the
remote description; the buffer for c1 still holds the candidate and the
connection has an empty applied list afterwards. -/
theorem ice_buffer_counterexample :
    handleAnswer true
      (handleIceCandidate true
        ({ pcs := [("c1", RTCPeer.mk none (some "offer1") [])] } : Orch)
        { type := "candidate", senderId := "c1", signal := "cand1" })
      { type := "answer", senderId := "c1", signal := "ans1" } =
    ({ pcs := [("c1", RTCPeer.mk (some "ans1") (some "offer1") [])],
       pendingIceCandidates := [("c1", ["cand1"])] } : Orch) := by
  decide

/-- Claim C1, amended: candidates arriving for a target with no connection or
no remote description are buffered per target in arrival order; on the client
side, applying an offer applies every candidate buffered under the host key in
original order and empties that buffer; applying an answer, the host side path,
never consults the buffer, so candidates buffered before an answer stay
buffered and are never applied. -/
theorem ice_buffering_spec (isHost : Bool) (st : Orch) (d : ClientSig)
    (joinCode ans : String) :
    (mget (iceKey isHost d) st.pcs = none →
      handleIceCandidate isHost st d =
        { st with pendingIceCandidates := bufPush st.pendingIceCandidates (iceKey isHost d) d.signal }) ∧
    (∀ pc, mget (iceKey isHost d) st.pcs = some pc → pc.remoteDescription = none →
      handleIceCandidate isHost st d =
        { st with pendingIceCandidates := bufPush st.pendingIceCandidates (iceKey isHost d) d.signal }) ∧
    (∀ pc desc, mget (iceKey isHost d) st.pcs = some pc →
      pc.remoteDescription = some desc →
      handleIceCandidate isHost st d =
        { st with pcs := mset (iceKey isHost d) (addIceCandidate pc d.signal) st.pcs }) ∧
    (∀ pc, isHost = false → mget "host" st.pcs = some pc →
      (handleOffer false joinCode st d ans).2 =
        [{ type := "answer", sessionId := joinCode, targetId := d.senderId, signal := ans }] ∧
      mget "host" (handleOffer false joinCode st d ans).1.pcs =
        some (RTCPeer.mk (some d.signal) (some ans)
          (pc.applied ++ (mget "host" st.pendingIceCandidates).getD [])) ∧
      (mget "host" (handleOffer false joinCode st d ans).1.pendingIceCandidates).getD [] = []) ∧
    ((handleAnswer isHost st d).pendingIceCandidates = st.pendingIceCandidates ∧
      ∀ k, (mget k (handleAnswer isHost st d).pcs).map RTCPeer.applied =
        (mget k st.pcs).map RTCPeer.applied) := by
  refine ⟨?_, ?_, ?_, ?_, ?_, ?_⟩
  · intro h
    simp [handleIceCandidate, h]
  · intro pc hpc hrd
    simp [handleIceCandidate, hpc, hrd]
  · intro pc desc hpc hrd
    simp [handleIceCandidate, hpc, hrd]
  · intro pc hh hpc
    have hkey : iceKey false d = "host" := rfl
    refine ⟨?_, ?_, ?_⟩
    · simp [handleOffer, hkey, hpc]
    · simp only [handleOffer, hkey, hpc, foldl_addIceCandidate]
      rw [mget_mset_self]
      simp [setRemote]
    · simp only [handleOffer, hkey, hpc]
      by_cases hc : ((mget "host" st.pendingIceCandidates).getD []).length > 0
      · simp only [if_pos hc]
        rw [mget_mset_self]
        rfl
      · simp only [if_neg hc]
        rcases hg : mget "host" st.pendingIceCandidates with _ | l
        · simp [hg]
        · rw [hg] at hc
          simp only [Option.getD_some] at hc ⊢
          exact List.length_eq_zero.mp (Nat.eq_zero_of_not_pos hc)
  · rcases hpc : mget (iceKey isHost d) st.pcs with _ | pc
    · simp [handleAnswer, hpc]
    · simp [handleAnswer, hpc]
  · intro k
    rcases hpc : mget (iceKey isHost d) st.pcs with _ | pc
    · simp [handleAnswer, hpc]
    · simp only [handleAnswer, hpc]
      by_cases hk : k = iceKey isHost d
      · subst hk
        rw [mget_mset_self, hpc]
        simp [setRemote]
      · rw [mget_mset_ne _ _ hk]

/-- Witness for ice_buffering_spec: a client buffers a candidate that arrives
with no connection yet, and a host side answer leaves a non-empty buffer
untouched. -/
theorem ice_buffering_spec_witness :
    handleIceCandidate false ({ } : Orch)
      { type := "candidate", senderId := "host", signal := "cand0" } =
      ({ pendingIceCandidates := [("host", ["cand0"])] } : Orch) ∧
    (handleAnswer true
      ({ pcs := [("c1", RTCPeer.mk none none [])],
         pendingIceCandidates := [("c1", ["candX"])] } : Orch)
      { type := "answer", senderId := "c1", signal := "ansX" }).pendingIceCandidates =
      [("c1", ["candX"])] := by
  constructor
  · have h := (ice_buffering_spec false ({ } : Orch)
      { type := "candidate", senderId := "host", signal := "cand0" } "" "").1 (by decide)
    exact h.trans (by decide)
  · have h := (ice_buffering_spec true
      ({ pcs := [("c1", RTCPeer.mk none none [])],
         pendingIceCandidates := [("c1", ["candX"])] } : Orch)
      { type := "answer", senderId := "c1", signal := "ansX" } "" "").2.2.2.2.1
    exact h.trans (by decide)

/-- Claim C7 fails as stated: when connectivity fails for peer c1, the host
evicts the peer and keeps c2 untouched, but sends no signaling message at all,
while the claim requires a peer-disconnected notification to the registry. -/
theorem failure_policy_counterexample :
    (onConnectionFailure true
      ({ peers := [Peer.mk "c1" "Peer c1" "Connected", Peer.mk "c2" "Peer c2" "Connected"],
         pcs := [("c1", RTCPeer.mk (some "a1") (some "o1") []),
                 ("c2", RTCPeer.mk (some "a2") (some "o2") [])] } : Orch) "c1").2 = [] ∧
    (onConnectionFailure true
      ({ peers := [Peer.mk "c1" "Peer c1" "Connected", Peer.mk "c2" "Peer c2" "Connected"],
         pcs := [("c1", RTCPeer.mk (some "a1") (some "o1") []),
                 ("c2", RTCPeer.mk (some "a2") (some "o2") [])] } : Orch) "c1").1.peers =
      [Peer.mk "c2" "Peer c2" "Connected"] := by
  constructor
  · decide
  · decide

theorem settleConnecting_fields (st : Orch) :
    (settleConnecting st).peers = st.peers ∧
    (settleConnecting st).pcs = st.pcs ∧
    (settleConnecting st).channels = st.channels ∧
    (settleConnecting st).pendingClients = st.pendingClients ∧
    (settleConnecting st).remoteStream = st.remoteStream ∧
    (settleConnecting st).isSessionReady = st.isSessionReady ∧
    (settleConnecting st).currentSessionCode = st.currentSessionCode ∧
    (settleConnecting st).signalingQueue = st.signalingQueue ∧
    (settleConnecting st).pendingIceCandidates = st.pendingIceCandidates := by
  unfold settleConnecting
  by_cases hb : st.connectingPeers.isEmpty
  · simp [hb]
  · simp [hb]

/-- Claim C7, amended: on a failed or disconnected connectivity signal the
host evicts only that one peer, closing and dropping its connection, channel
and peers entry without any signaling message and without touching any other
peer; the client closes every connection and resets every local session state
field, also without any signaling message. -/
theorem failure_policy_spec (st : Orch) (target : String) :
    ((onConnectionFailure true st target).2 = [] ∧
     (∀ p, p ∈ st.peers → p.id ≠ target → p ∈ (onConnectionFailure true st target).1.peers) ∧
     (∀ p, p ∈ (onConnectionFailure true st target).1.peers → p ∈ st.peers ∧ p.id ≠ target) ∧
     mget target (onConnectionFailure true st target).1.pcs = none ∧
     (∀ k, k ≠ target → mget k (onConnectionFailure true st target).1.pcs = mget k st.pcs)) ∧
    ((onConnectionFailure false st target).2 = [] ∧
     (onConnectionFailure false st target).1.pcs = [] ∧
     (onConnectionFailure false st target).1.channels = [] ∧
     (onConnectionFailure false st target).1.peers = [] ∧
     (onConnectionFailure false st target).1.pendingClients = [] ∧
     (onConnectionFailure false st target).1.remoteStream = none ∧
     (onConnectionFailure false st target).1.isSessionReady = false ∧
     (onConnectionFailure false st target).1.currentSessionCode = "" ∧
     (onConnectionFailure false st target).1.signalingQueue = [] ∧
     (onConnectionFailure false st target).1.pendingIceCandidates = []) := by
  have hpeers : (onConnectionFailure true st target).1.peers =
      st.peers.filter (fun p => decide (p.id ≠ target)) :=
    (settleConnecting_fields _).1
  have hpcs : (onConnectionFailure true st target).1.pcs = mdel target st.pcs :=
    (settleConnecting_fields _).2.1
  constructor
  · refine ⟨rfl, ?_, ?_, ?_, ?_⟩
    · intro p hp hne
      rw [hpeers]
      simp only [List.mem_filter, decide_eq_true_eq]
      exact ⟨hp, hne⟩
    · intro p hp
      rw [hpeers] at hp
      simp only [List.mem_filter, decide_eq_true_eq] at hp
      exact hp
    · rw [hpcs]
      exact mget_mdel_self target st.pcs
    · intro k hk
      rw [hpcs]
      exact mget_mdel_ne st.pcs hk
  · refine ⟨rfl, ?_, ?_, ?_, ?_, ?_, ?_, ?_, ?_, ?_⟩
    · exact (settleConnecting_fields _).2.1
    · exact (settleConnecting_fields _).2.2.1
    · exact (settleConnecting_fields _).1
    · exact (settleConnecting_fields _).2.2.2.1
    · exact (settleConnecting_fields _).2.2.2.2.1
    · exact (settleConnecting_fields _).2.2.2.2.2.1
    · exact (settleConnecting_fields _).2.2.2.2.2.2.1
    · exact (settleConnecting_fields _).2.2.2.2.2.2.2.1
    · exact (settleConnecting_fields _).2.2.2.2.2.2.2.2

/-- Witness for failure_policy_spec: an untouched second peer survives a host
side eviction, and a client side failure clears the connection map. -/
theorem failure_policy_spec_witness :
    Peer.mk "c2" "Peer c2" "Connected" ∈ (onConnectionFailure true
      ({ peers := [Peer.mk "c1" "Peer c1" "Connected", Peer.mk "c2" "Peer c2" "Connected"],
         pcs := [("c1", RTCPeer.mk (some "a1") (some "o1") []),
                 ("c2", RTCPeer.mk (some "a2") (some "o2") [])] } : Orch) "c1").1.peers ∧
    (onConnectionFailure false
      ({ pcs := [("host", RTCPeer.mk (some "a1") (some "o1") [])] } : Orch) "host").1.pcs = [] := by
  constructor
  · exact (failure_policy_spec _ "c1").1.2.1 (Peer.mk "c2" "Peer c2" "Connected")
      (by decide) (by decide)
  · exact (failure_policy_spec _ "host").2.2.1

/-- Claim C9: on the host, an input event message is injected exactly when the
sending peer is in the granted control set; messages from non-granted peers
are discarded; a cursor-position message is never injected whatever the grant
state; and toggling control is a pure host-local update of the granted set. -/
theorem control_gate_spec (granted : List String) (peerId : String) (m : CtrlMsg) :
    (m.type ∈ inputEventTypes →
      (onDataChannelMessage true granted peerId m = CtrlAction.inject m ↔ peerId ∈ granted)) ∧
    (m.type ∈ inputEventTypes → peerId ∉ granted →
      onDataChannelMessage true granted peerId m = CtrlAction.discard) ∧
    (m.type = "cursor-position" →
      ∀ g2 m2, onDataChannelMessage true g2 peerId m ≠ CtrlAction.inject m2) ∧
    (peerId ∈ granted →
      ∀ x, x ∈ handleToggleControl granted peerId ↔ (x ∈ granted ∧ x ≠ peerId)) ∧
    (peerId ∉ granted →
      ∀ x, x ∈ handleToggleControl granted peerId ↔ (x ∈ granted ∨ x = peerId)) := by
  refine ⟨?_, ?_, ?_, ?_, ?_⟩
  · intro hm
    have hcur : m.type ≠ "cursor-position" := by
      simp [inputEventTypes] at hm
      rcases hm with h | h | h | h | h | h <;> simp [h]
    have htr : jsTruthy m.type = true := by
      simp [inputEventTypes] at hm
      rcases hm with h | h | h | h | h | h <;> simp [jsTruthy, h]
    by_cases hg : peerId ∈ granted
    · simp [onDataChannelMessage, hcur, htr, hg]
    · simp [onDataChannelMessage, hcur, htr, hg]
  · intro hm hg
    have hcur : m.type ≠ "cursor-position" := by
      simp [inputEventTypes] at hm
      rcases hm with h | h | h | h | h | h <;> simp [h]
    simp [onDataChannelMessage, hcur, hg]
  · intro hcur g2 m2
    simp [onDataChannelMessage, hcur]
  · intro hg x
    simp [handleToggleControl, hg, List.mem_filter]
  · intro hg x
    simp [handleToggleControl, hg, List.mem_append]

/-- Witness for control_gate_spec: a granted peer's mousedown is injected, a
non-granted peer's keydown is discarded, and cursor-position is not injected
even for a granted peer. -/
theorem control_gate_spec_witness :
    onDataChannelMessage true ["c1"] "c1" { type := "mousedown", body := "xy" } =
      CtrlAction.inject { type := "mousedown", body := "xy" } ∧
    onDataChannelMessage true [] "c1" { type := "keydown" } = CtrlAction.discard ∧
    onDataChannelMessage true ["c1"] "c1" { type := "cursor-position" } ≠
      CtrlAction.inject { type := "cursor-position" } := by
  refine ⟨?_, ?_, ?_⟩
  · exact ((control_gate_spec ["c1"] "c1" { type := "mousedown", body := "xy" }).1
      (by decide)).2 (by decide)
  · exact (control_gate_spec [] "c1" { type := "keydown" }).2.1 (by decide) (by decide)
  · exact (control_gate_spec ["c1"] "c1" { type := "cursor-position" }).2.2.1 rfl
      ["c1"] { type := "cursor-position" }

end Vibe
